import Mathlib

/-!
Shallow embedding of the codeforgex extension core: the Context Set
(`ContextProvider`), the mode state machine (`ModeManager`), the external
command gateway (`CodeForgeService._executeCommand`) and the edit
reconciliation pipeline (`CodeForgeService.processEdit` and its helpers).
Stateful TypeScript methods become explicit state-passing functions; the
filesystem, subprocess and user-interaction effects of the pipeline become
an explicit event trace driven by an environment record resolving each
external outcome.
-/

namespace CodeForgeX

/-- Embedding of the `ContextFile` interface (src/types/index.ts).  The
`vscode.Uri` handle is modelled by its string form (the code only ever
compares `uri.toString()`); `content?: string` becomes `Option String`. -/
structure ContextFile where
  uri : String
  name : String
  relativePath : String
  content : Option String
  isActive : Bool
deriving DecidableEq, Repr

/-- JavaScript truthiness of the optional `content` field: `undefined` and
the empty string are falsy, every other string is truthy. -/
def contentTruthy : Option String → Bool
  | none => false
  | some s => !s.isEmpty

/-- The labeled block built for one file: `// File: ${relativePath}\n${content}`. -/
def fileBlock (f : ContextFile) : String :=
  "// File: " ++ f.relativePath ++ "\n" ++ f.content.getD ""

/-- `CodeForgeService._buildContextContent`: filter to active files with
truthy content, map to labeled blocks, join with the visible separator. -/
def buildContextContent (contextFiles : List ContextFile) : String :=
  String.intercalate "\n\n---\n\n"
    ((contextFiles.filter (fun f => f.isActive && contentTruthy f.content)).map fileBlock)

/-- `ContextProvider.getActiveContextContent` (the spec's `activeContentBlob()`):
same filter/map/join pipeline as `buildContextContent`. -/
def getActiveContextContent (contextFiles : List ContextFile) : String :=
  String.intercalate "\n\n---\n\n"
    ((contextFiles.filter (fun f => f.isActive && contentTruthy f.content)).map fileBlock)

/-- The `ExtensionMode` enum, constructors in declaration order
(edit, agent, ask). -/
inductive ExtensionMode where
  | edit
  | agent
  | ask
deriving DecidableEq, Repr, Fintype

/-- `Object.values(ExtensionMode)`: the enum members in declaration order. -/
def modeValues : List ExtensionMode :=
  [ExtensionMode.edit, ExtensionMode.agent, ExtensionMode.ask]

/-- `ModeManager.switchMode` (the spec's `cycle()`): index of the current
mode in declaration order, advance by one modulo the number of modes.
`setMode` assigns the new mode (its not-equal guard only suppresses the
change event, never the assignment), so the resulting current mode is
`modes[nextIndex]`. -/
def switchMode (current : ExtensionMode) : ExtensionMode :=
  let modes := modeValues
  let currentIndex := modes.indexOf current
  let nextIndex := (currentIndex + 1) % modes.length
  modes.getD nextIndex current

/-- Outcome of `execAsync` inside `_executeCommand`: the promise either
resolves with captured stdout/stderr (exit code zero) or rejects with an
`Error` message (non-zero exit, spawn failure, or timeout kill). -/
inductive ExecOutcome where
  | success (stdout stderr : String)
  | failure (message : String)
deriving DecidableEq, Repr

/-- `CodeForgeService._executeCommand`, outcome classification only.
Inside the `try`: if stderr is truthy and stdout falsy, `throw
new Error(stderr)`; otherwise return `stdout || stderr || 'Command executed
successfully'`.  Every thrown `Error` (including the stderr one and an
`execAsync` rejection) is caught and rewrapped as
`CodeForgeAI CLI error: ${message}`. -/
def executeCommand (outcome : ExecOutcome) : Except String String :=
  match outcome with
  | ExecOutcome.success stdout stderr =>
    if !stderr.isEmpty && stdout.isEmpty then
      Except.error ("CodeForgeAI CLI error: " ++ stderr)
    else if !stdout.isEmpty then
      Except.ok stdout
    else if !stderr.isEmpty then
      Except.ok stderr
    else
      Except.ok "Command executed successfully"
  | ExecOutcome.failure message =>
    Except.error ("CodeForgeAI CLI error: " ++ message)

/-- `ContextProvider.addFile`.  The host-editor interactions are resolved
by arguments: `name` is `path.basename(uri.fsPath)`, `relativePath` the
workspace-relative path (or bare filename), `readResult` the outcome of
`vscode.workspace.openTextDocument(uri).getText()`.  Returns the new file
list and the user-visible notices shown, in order.  The duplicate check by
`uri.toString()` equality runs before any read. -/
def addFile (files : List ContextFile) (uri name relativePath : String)
    (readResult : Except String String) : List ContextFile × List String :=
  match files.find? (fun f => f.uri == uri) with
  | some _ => (files, ["File " ++ name ++ " is already in context"])
  | none =>
    match readResult with
    | Except.error e => (files, ["Failed to read file: " ++ e])
    | Except.ok content =>
      (files ++ [{ uri := uri, name := name, relativePath := relativePath,
                   content := some content, isActive := true }],
       ["Added " ++ name ++ " to context"])

/-- `ContextProvider.removeFile`: `findIndex` by uri then `splice(index, 1)`
— remove the first entry whose uri matches, no-op when absent. -/
def removeFile : List ContextFile → String → List ContextFile × List String
  | [], _ => ([], [])
  | f :: rest, uri =>
    if f.uri == uri then
      (rest, ["Removed " ++ f.name ++ " from context"])
    else
      let r := removeFile rest uri
      (f :: r.1, r.2)

/-- `ContextProvider.toggleFileActive`: `find` by uri and flip `isActive`
in place on the first match, no-op when absent. -/
def toggleFileActive : List ContextFile → String → List ContextFile
  | [], _ => []
  | f :: rest, uri =>
    if f.uri == uri then { f with isActive := !f.isActive } :: rest
    else f :: toggleFileActive rest uri

/-- `ContextProvider.clearContext`: reset the list to empty. -/
def clearContext : List ContextFile := []

/-- `ContextProvider.getContextFiles` (the spec's `activeFiles()`): the
entries with `isActive` set, in stored order. -/
def getContextFiles (files : List ContextFile) : List ContextFile :=
  files.filter (fun f => f.isActive)

/-- A user-level operation on the Context Set, with the external inputs an
invocation resolves (basename, relative path, file-read result) packaged
into the operation. -/
inductive ContextOp where
  | add (uri name relativePath : String) (readResult : Except String String)
  | remove (uri : String)
  | toggle (uri : String)
  | clear
deriving Repr

/-- Apply one operation to the Context Set state. -/
def applyOp (files : List ContextFile) : ContextOp → List ContextFile
  | ContextOp.add uri name relativePath readResult =>
    (addFile files uri name relativePath readResult).1
  | ContextOp.remove uri => (removeFile files uri).1
  | ContextOp.toggle uri => toggleFileActive files uri
  | ContextOp.clear => clearContext

/-- Run a finite sequence of operations from the initial empty Context Set
(`_contextFiles: ContextFile[] = []`). -/
def runOps (ops : List ContextOp) : List ContextFile :=
  ops.foldl applyOp []

/-- The sentinel suffix the external tool appends to edited files. -/
def sentinelSuffix : String := ".codeforgedit"

/-- JavaScript `String.prototype.replace` with a string pattern: replace
the first occurrence of `pat` (scanning left to right) with `rep`; the
string is unchanged when `pat` does not occur. -/
def replaceFirstAux (pat rep : List Char) : List Char → List Char
  | [] => if pat.isEmpty then rep else []
  | c :: rest =>
    if pat.isPrefixOf (c :: rest) then rep ++ (c :: rest).drop pat.length
    else c :: replaceFirstAux pat rep rest

/-- String wrapper for `replaceFirstAux`. -/
def replaceFirst (s pat rep : String) : String :=
  String.mk (replaceFirstAux pat.toList rep.toList s.toList)

/-- JavaScript `String.prototype.endsWith`: the search string is a suffix
of the receiver (modelled on the character lists). -/
def jsEndsWith (s searchString : String) : Bool :=
  searchString.toList.isSuffixOf s.toList

/-- The document store: live document text addressed by uri string. -/
abbrev DocStore := String → String

/-- Replace the entire text of the document at `uri` (the
`WorkspaceEdit.replace` over the full range of the document). -/
def replaceDoc (docs : DocStore) (uri newText : String) : DocStore :=
  fun u => if u == uri then newText else docs u

/-- `CodeForgeService._applyAllEdits` as a document-store transformer.
For each discovered sentinel path in order: strip the first occurrence of
`.codeforgedit`, look up the first tracked file whose `relativePath` is a
string suffix of the stripped path (`String.prototype.endsWith`, no
path-separator boundary), and on a match replace that file's whole
document with the sentinel file's content (`readFile` resolves the
filesystem read); unmatched sentinel paths change nothing. -/
def applyAllEdits (editFiles : List String) (originalFiles : List ContextFile)
    (readFile : String → String) (docs : DocStore) : DocStore :=
  match editFiles with
  | [] => docs
  | editFile :: rest =>
    let originalPath := replaceFirst editFile sentinelSuffix ""
    match originalFiles.find? (fun f => jsEndsWith originalPath f.relativePath) with
    | some originalFile =>
      applyAllEdits rest originalFiles readFile
        (replaceDoc docs originalFile.uri (readFile editFile))
    | none => applyAllEdits rest originalFiles readFile docs

/-- One observable filesystem / subprocess / editor effect of an Edit
invocation, in the order the pipeline awaits them. -/
inductive FsEvent where
  | mkTempDir (dir : String)
  | writeStagedFile (path : String)
  | execTool (args : List String)
  | readSentinel (path : String)
  | applyDocEdit (uri : String) (newText : String)
  | removeTempDir (dir : String)
deriving DecidableEq, Repr

/-- Environment resolving the external nondeterminism of one Edit
invocation: the generated temp-directory name (`os.tmpdir()` +
`codeforgex-` + `Date.now()`), the subprocess outcome, the sentinel files
the traversal of the staging tree discovers, the content each sentinel
file reads as, and the user's choice in the apply prompt (`none` =
dismissed). -/
structure EditEnv where
  tempDirName : String
  execOutcome : ExecOutcome
  sentinelFiles : List String
  readFile : String → String
  userChoice : Option String

/-- Staging effects of `_createTempContext`: create the temp directory,
then for every context file with truthy content write its cached content
at its relative path under the staging root. -/
def stagingEvents (tempDir : String) (contextFiles : List ContextFile) : List FsEvent :=
  FsEvent.mkTempDir tempDir ::
    (contextFiles.filter (fun f => contentTruthy f.content)).map
      (fun f => FsEvent.writeStagedFile (tempDir ++ "/" ++ f.relativePath))

/-- Effects of `_applyAllEdits`: for each sentinel path, when a tracked
file tail-matches the stripped path, read the sentinel file and apply a
full-document replacement to the matched file's document; otherwise no
effect. -/
def applyAllEvents (editFiles : List String) (originalFiles : List ContextFile)
    (readFile : String → String) : List FsEvent :=
  match editFiles with
  | [] => []
  | editFile :: rest =>
    let originalPath := replaceFirst editFile sentinelSuffix ""
    (match originalFiles.find? (fun f => jsEndsWith originalPath f.relativePath) with
     | some originalFile =>
       [FsEvent.readSentinel editFile,
        FsEvent.applyDocEdit originalFile.uri (readFile editFile)]
     | none => []) ++ applyAllEvents rest originalFiles readFile

/-- Effects of `_handleEditResults`: when at least one sentinel file was
discovered, prompt the user; `Apply All` runs `_applyAllEdits`, `Review
Each` shows the not-yet-implemented notice, `Cancel` or dismissal does
nothing.  No sentinel files: silently return. -/
def handleEditResultsEvents (originalFiles : List ContextFile) (env : EditEnv) :
    List FsEvent :=
  if env.sentinelFiles.length > 0 then
    match env.userChoice with
    | some choice =>
      if choice == "Apply All" then
        applyAllEvents env.sentinelFiles originalFiles env.readFile
      else []
    | none => []
  else []

/-- The error message `processEdit` throws on an empty context. -/
def emptyContextMessage : String :=
  "No files in context for editing. Please add files to context first."

/-- `CodeForgeService.processEdit` as a result plus event trace.  An empty
context throws before any effect.  Otherwise: stage the temp context,
invoke the gateway (`edit <tempDir> --user_prompt "<request>"`), on
success discover-and-handle the sentinel results, and — via the
`try`/`finally` — remove the temp directory recursively whether the
gateway call succeeded or threw. -/
def processEdit (request : String) (contextFiles : List ContextFile) (env : EditEnv) :
    Except String String × List FsEvent :=
  if contextFiles.length == 0 then
    (Except.error emptyContextMessage, [])
  else
    let tempDir := env.tempDirName
    let staged := stagingEvents tempDir contextFiles
    let invoke := [FsEvent.execTool ["edit", tempDir, "--user_prompt",
                                     "\"" ++ request ++ "\""]]
    match executeCommand env.execOutcome with
    | Except.error e =>
      (Except.error e, staged ++ invoke ++ [FsEvent.removeTempDir tempDir])
    | Except.ok result =>
      (Except.ok result,
       staged ++ invoke ++ handleEditResultsEvents contextFiles env
         ++ [FsEvent.removeTempDir tempDir])

/-! ## Theorems -/

/-- C6: `switchMode` (the spec's `cycle()`) advances through the declared
enumeration order Edit → Agent → Ask, wrapping from the last back to the
first; three applications return to the start from every state, and from
any state the three successive states before repetition are all three
modes, each visited once. -/
theorem switchMode_cycle_order :
    (switchMode ExtensionMode.edit = ExtensionMode.agent ∧
     switchMode ExtensionMode.agent = ExtensionMode.ask ∧
     switchMode ExtensionMode.ask = ExtensionMode.edit) ∧
    (∀ m : ExtensionMode, switchMode (switchMode (switchMode m)) = m) ∧
    (∀ m x : ExtensionMode, x ∈ [m, switchMode m, switchMode (switchMode m)]) ∧
    (∀ m : ExtensionMode, [m, switchMode m, switchMode (switchMode m)].Nodup) := by
  decide

/-- C3: gateway outcome classification of `_executeCommand`.  Exit success
with non-empty stderr and empty stdout fails carrying the stderr text
(wrapped in the CLI-error prefix); exit success with non-empty stdout
returns that stdout regardless of stderr; when no error condition is met
the result is stdout, falling back to stderr, then to the generic success
string; a rejected execution fails with the wrapped underlying message. -/
theorem executeCommand_classification :
    (∀ stderr : String, stderr ≠ "" →
      executeCommand (ExecOutcome.success "" stderr)
        = Except.error ("CodeForgeAI CLI error: " ++ stderr)) ∧
    (∀ stdout stderr : String, stdout ≠ "" →
      executeCommand (ExecOutcome.success stdout stderr) = Except.ok stdout) ∧
    (∀ stdout stderr : String, ¬ (stderr ≠ "" ∧ stdout = "") →
      executeCommand (ExecOutcome.success stdout stderr)
        = Except.ok (if stdout ≠ "" then stdout
                     else if stderr ≠ "" then stderr
                     else "Command executed successfully")) ∧
    (∀ message : String,
      executeCommand (ExecOutcome.failure message)
        = Except.error ("CodeForgeAI CLI error: " ++ message)) := by
  refine ⟨?_, ?_, ?_, fun _ => rfl⟩
  · intro stderr h
    simp [executeCommand, String.isEmpty_iff, h]
  · intro stdout stderr h
    simp [executeCommand, String.isEmpty_iff, h]
  · intro stdout stderr h
    by_cases hout : stdout = ""
    · have hserr : stderr = "" := by
        by_contra hne
        exact h ⟨hne, hout⟩
      subst hout
      subst hserr
      rfl
    · simp [executeCommand, String.isEmpty_iff, hout]

/-- Witness for C3 at the spec's own example inputs. -/
theorem executeCommand_classification_witness :
    executeCommand (ExecOutcome.success "" "warning: deprecated")
      = Except.error ("CodeForgeAI CLI error: " ++ "warning: deprecated") ∧
    executeCommand (ExecOutcome.success "ok" "warning")
      = Except.ok "ok" ∧
    executeCommand (ExecOutcome.success "" "")
      = Except.ok (if ("" : String) ≠ "" then ""
                   else if ("" : String) ≠ "" then ""
                   else "Command executed successfully") :=
  ⟨executeCommand_classification.1 "warning: deprecated" (by decide),
   executeCommand_classification.2.1 "ok" "warning" (by decide),
   executeCommand_classification.2.2.1 "" "" (by decide)⟩

/-- C4: invoking the Edit pipeline with an empty context fails with the
empty-context error before performing any filesystem or process I/O: the
event trace is empty — no temp directory, no writes, no tool execution. -/
theorem processEdit_emptyContext_noEffects (request : String) (env : EditEnv) :
    processEdit request [] env = (Except.error emptyContextMessage, []) := rfl

/-- C5 counterexample: the claim says `activeContentBlob()` concatenates
each active file as a labeled block, but an active file whose cached
content is the empty string is dropped by the truthiness filter: for the
singleton context below the claim predicts the block `// File: p.ts\n`,
while the code yields the empty string. -/
theorem getActiveContextContent_counterexample :
    getActiveContextContent
      [{ uri := "file:p.ts", name := "p.ts", relativePath := "p.ts",
         content := some "", isActive := true }] = "" ∧
    getActiveContextContent
      [{ uri := "file:p.ts", name := "p.ts", relativePath := "p.ts",
         content := some "", isActive := true }] ≠ "// File: p.ts\n" := by
  exact ⟨rfl, by decide⟩

/-- C5 amended: `activeContentBlob()` concatenates each active file *with
truthy (non-empty) content* as a labeled block joined by the separator, in
insertion order; when every file is active with non-empty content nothing
is dropped, and the spec's two-file example produces exactly the stated
string.  (Repeated calls trivially agree: the embedding is a pure function
of the set.) -/
theorem getActiveContextContent_labeledBlocks :
    (∀ files : List ContextFile,
      (∀ f ∈ files, f.isActive = true ∧ contentTruthy f.content = true) →
      getActiveContextContent files
        = String.intercalate "\n\n---\n\n" (files.map fileBlock)) ∧
    getActiveContextContent
      [{ uri := "file:a.ts", name := "a.ts", relativePath := "a.ts",
         content := some "x", isActive := true },
       { uri := "file:b.ts", name := "b.ts", relativePath := "b.ts",
         content := some "y", isActive := true }]
      = "// File: a.ts\nx\n\n---\n\n// File: b.ts\ny" := by
  constructor
  · intro files h
    unfold getActiveContextContent
    have hfilter : files.filter (fun f => f.isActive && contentTruthy f.content) = files := by
      rw [List.filter_eq_self]
      intro f hf
      have := h f hf
      simp [this.1, this.2]
    rw [hfilter]
  · rfl

/-- Witness for C5's amended theorem at a concrete one-file context. -/
theorem getActiveContextContent_labeledBlocks_witness :
    getActiveContextContent
      [{ uri := "file:c.ts", name := "c.ts", relativePath := "c.ts",
         content := some "w", isActive := true }]
      = String.intercalate "\n\n---\n\n"
          ([({ uri := "file:c.ts", name := "c.ts", relativePath := "c.ts",
               content := some "w", isActive := true } : ContextFile)].map fileBlock) :=
  getActiveContextContent_labeledBlocks.1 _ (by decide)

/-- Removing a file yields a sublist of the original Context Set. -/
theorem removeFile_sublist (files : List ContextFile) (uri : String) :
    List.Sublist (removeFile files uri).1 files := by
  induction files with
  | nil => exact List.Sublist.refl []
  | cons f rest ih =>
    by_cases h : (f.uri == uri) = true
    · simp only [removeFile, h, if_true]
      exact List.sublist_cons_self _ _
    · simpa [removeFile, h] using ih

/-- Toggling the active flag leaves the stored uris unchanged. -/
theorem toggleFileActive_map_uri (files : List ContextFile) (uri : String) :
    (toggleFileActive files uri).map ContextFile.uri = files.map ContextFile.uri := by
  induction files with
  | nil => rfl
  | cons f rest ih =>
    by_cases h : (f.uri == uri) = true
    · simp [toggleFileActive, h]
    · simp [toggleFileActive, h, ih]

/-- `addFile` preserves uniqueness of uris: it only appends an entry whose
uri passed the duplicate check. -/
theorem addFile_map_uri_nodup (files : List ContextFile) (uri name relativePath : String)
    (readResult : Except String String)
    (h : (files.map ContextFile.uri).Nodup) :
    (((addFile files uri name relativePath readResult).1).map ContextFile.uri).Nodup := by
  unfold addFile
  cases hfind : files.find? (fun f => f.uri == uri) with
  | some g => exact h
  | none =>
    cases readResult with
    | error e => exact h
    | ok content =>
      simp only [List.map_append, List.map_cons, List.map_nil]
      rw [List.nodup_append]
      refine ⟨h, List.nodup_singleton _, ?_⟩
      intro x hx hx1
      simp only [List.mem_singleton] at hx1
      obtain ⟨f, hf, hfu⟩ := List.mem_map.mp hx
      rw [List.find?_eq_none] at hfind
      exact absurd (show (f.uri == uri) = true by simp [hfu, hx1]) (hfind f hf)

/-- Every Context Set operation preserves uniqueness of uris. -/
theorem applyOp_map_uri_nodup (files : List ContextFile) (op : ContextOp)
    (h : (files.map ContextFile.uri).Nodup) :
    ((applyOp files op).map ContextFile.uri).Nodup := by
  cases op with
  | add uri name relativePath readResult =>
    exact addFile_map_uri_nodup files uri name relativePath readResult h
  | remove uri =>
    exact h.sublist ((removeFile_sublist files uri).map ContextFile.uri)
  | toggle uri =>
    show ((toggleFileActive files uri).map ContextFile.uri).Nodup
    rw [toggleFileActive_map_uri]
    exact h
  | clear => exact List.nodup_nil

/-- Any operation sequence from the empty Context Set keeps uris unique. -/
theorem runOps_map_uri_nodup (ops : List ContextOp) :
    ((runOps ops).map ContextFile.uri).Nodup := by
  suffices h : ∀ init : List ContextFile, (init.map ContextFile.uri).Nodup →
      ((ops.foldl applyOp init).map ContextFile.uri).Nodup by
    exact h [] (by simp)
  induction ops with
  | nil =>
    intro init h
    simpa using h
  | cons op rest ih =>
    intro init h
    exact ih (applyOp init op) (applyOp_map_uri_nodup init op h)

/-- C7: the Context Set never holds two entries with the same uri, and
adding an already-present file reference leaves the set unchanged (same
entries, order and flags) and surfaces exactly the one "already in
context" notice. -/
theorem contextSet_uri_nodup :
    (∀ (files : List ContextFile) (uri name relativePath : String)
       (readResult : Except String String) (g : ContextFile),
       g ∈ files → g.uri = uri →
       addFile files uri name relativePath readResult
         = (files, ["File " ++ name ++ " is already in context"])) ∧
    (∀ ops : List ContextOp, ((runOps ops).map ContextFile.uri).Nodup) := by
  constructor
  · intro files uri name relativePath readResult g hg hgu
    have hsome : (files.find? (fun f => f.uri == uri)).isSome := by
      rw [List.find?_isSome]
      exact ⟨g, hg, by simp [hgu]⟩
    unfold addFile
    cases hfind : files.find? (fun f => f.uri == uri) with
    | some _ => rfl
    | none =>
      rw [hfind] at hsome
      simp at hsome
  · exact runOps_map_uri_nodup

/-- Witness for C7: a duplicate add on a concrete one-file set. -/
theorem contextSet_uri_nodup_witness :
    addFile
      [{ uri := "file:u.ts", name := "u.ts", relativePath := "u.ts",
         content := some "c", isActive := true }] "file:u.ts" "u.ts" "u.ts"
      (Except.ok "again")
      = ([{ uri := "file:u.ts", name := "u.ts", relativePath := "u.ts",
            content := some "c", isActive := true }],
         ["File " ++ "u.ts" ++ " is already in context"]) :=
  contextSet_uri_nodup.1 _ "file:u.ts" "u.ts" "u.ts" (Except.ok "again")
    { uri := "file:u.ts", name := "u.ts", relativePath := "u.ts",
      content := some "c", isActive := true }
    (by simp) rfl

/-- C8: after every finite operation sequence, `getContextFiles` (the
spec's `activeFiles()`) is exactly the ordered subsequence of tracked
files whose active flag is true: every returned file is active, the view
is a sublist of the set, and every active tracked file appears in it. -/
theorem getContextFiles_activeSubseq :
    (∀ ops : List ContextOp, ∀ f ∈ getContextFiles (runOps ops), f.isActive = true) ∧
    (∀ ops : List ContextOp, List.Sublist (getContextFiles (runOps ops)) (runOps ops)) ∧
    (∀ ops : List ContextOp, ∀ f ∈ runOps ops, f.isActive = true →
       f ∈ getContextFiles (runOps ops)) := by
  refine ⟨?_, ?_, ?_⟩
  · intro ops f hf
    simpa using (List.mem_filter.mp hf).2
  · intro ops
    exact List.filter_sublist _
  · intro ops f hf hact
    exact List.mem_filter.mpr ⟨hf, by simp [hact]⟩

/-- Witness for C8: a concrete add-then-toggle sequence. -/
theorem getContextFiles_activeSubseq_witness :
    ({ uri := "file:u.ts", name := "u.ts", relativePath := "u.ts",
       content := some "c", isActive := true } : ContextFile)
      ∈ getContextFiles (runOps [ContextOp.add "file:u.ts" "u.ts" "u.ts" (Except.ok "c")]) :=
  getContextFiles_activeSubseq.2.2
    [ContextOp.add "file:u.ts" "u.ts" "u.ts" (Except.ok "c")] _ (by decide) rfl

/-- The tail-match predicate `_applyAllEdits` uses against a tracked file:
the sentinel path with the suffix stripped ends with the stored relative
path. -/
def tailMatches (editFile : String) (f : ContextFile) : Bool :=
  jsEndsWith (replaceFirst editFile sentinelSuffix "") f.relativePath

/-- Unfolding of `applyAllEdits` on one sentinel file. -/
theorem applyAllEdits_singleton (p : String) (orig : List ContextFile)
    (rd : String → String) (docs : DocStore) :
    applyAllEdits [p] orig rd docs
      = match orig.find? (tailMatches p) with
        | some f => replaceDoc docs f.uri (rd p)
        | none => docs := by
  have hpred : (fun f => jsEndsWith (replaceFirst p sentinelSuffix "") f.relativePath)
      = tailMatches p := by
    funext f
    rfl
  simp only [applyAllEdits]
  rw [hpred]

/-- C2: apply-all matching and replacement.  A sentinel file matches
exactly when some tracked file's relative path is a tail of the
suffix-stripped path; an unmatched sentinel is silently skipped (no
document changes); a matched sentinel replaces the matched file's whole
document text with the sentinel content and touches no other document;
and in the spec's concrete scenario the tracked document's text becomes
exactly `Z` while every other document is untouched. -/
theorem applyAllEdits_tailMatch_replace :
    (∀ (p : String) (orig : List ContextFile),
      (orig.find? (tailMatches p)).isSome
        ↔ ∃ f ∈ orig, tailMatches p f = true) ∧
    (∀ (p : String) (orig : List ContextFile) (rd : String → String) (docs : DocStore),
      orig.find? (tailMatches p) = none →
      applyAllEdits [p] orig rd docs = docs) ∧
    (∀ (p : String) (orig : List ContextFile) (rd : String → String) (docs : DocStore)
       (f : ContextFile),
      orig.find? (tailMatches p) = some f →
      applyAllEdits [p] orig rd docs f.uri = rd p ∧
      ∀ u : String, u ≠ f.uri → applyAllEdits [p] orig rd docs u = docs u) ∧
    (applyAllEdits ["/tmp/stage/src/a.ts.codeforgedit"]
        [{ uri := "file:w/src/a.ts", name := "a.ts", relativePath := "src/a.ts",
           content := some "old a", isActive := true },
         { uri := "file:w/src/b.ts", name := "b.ts", relativePath := "src/b.ts",
           content := some "old b", isActive := true }]
        (fun _ => "Z") (fun u => if u == "file:w/src/a.ts" then "old a" else "old b")
        "file:w/src/a.ts" = "Z" ∧
      ∀ u : String, u ≠ "file:w/src/a.ts" →
        applyAllEdits ["/tmp/stage/src/a.ts.codeforgedit"]
          [{ uri := "file:w/src/a.ts", name := "a.ts", relativePath := "src/a.ts",
             content := some "old a", isActive := true },
           { uri := "file:w/src/b.ts", name := "b.ts", relativePath := "src/b.ts",
             content := some "old b", isActive := true }]
          (fun _ => "Z") (fun u => if u == "file:w/src/a.ts" then "old a" else "old b")
          u = (fun u => if u == "file:w/src/a.ts" then "old a" else "old b") u) := by
  have hsingle := applyAllEdits_singleton
  refine ⟨?_, ?_, ?_, ?_⟩
  · intro p orig
    exact List.find?_isSome
  · intro p orig rd docs hnone
    rw [hsingle, hnone]
  · intro p orig rd docs f hsome
    rw [hsingle, hsome]
    constructor
    · simp [replaceDoc]
    · intro u hu
      simp [replaceDoc, hu]
  · have hfind : ([{ uri := "file:w/src/a.ts", name := "a.ts", relativePath := "src/a.ts",
                     content := some "old a", isActive := true },
                   { uri := "file:w/src/b.ts", name := "b.ts", relativePath := "src/b.ts",
                     content := some "old b", isActive := true }] :
                     List ContextFile).find? (tailMatches "/tmp/stage/src/a.ts.codeforgedit")
        = some { uri := "file:w/src/a.ts", name := "a.ts", relativePath := "src/a.ts",
                 content := some "old a", isActive := true } := by decide
    constructor
    · rw [hsingle, hfind]
      simp [replaceDoc]
    · intro u hu
      rw [hsingle, hfind]
      simp [replaceDoc, hu]

/-- Witness for C2 at a concrete unmatched sentinel. -/
theorem applyAllEdits_tailMatch_replace_witness :
    applyAllEdits ["/tmp/stage/other.txt.codeforgedit"]
      [{ uri := "file:w/src/a.ts", name := "a.ts", relativePath := "src/a.ts",
         content := some "old a", isActive := true }]
      (fun _ => "Z") (fun _ => "orig")
      = (fun _ => "orig") :=
  applyAllEdits_tailMatch_replace.2.1 "/tmp/stage/other.txt.codeforgedit"
    [{ uri := "file:w/src/a.ts", name := "a.ts", relativePath := "src/a.ts",
       content := some "old a", isActive := true }]
    (fun _ => "Z") (fun _ => "orig") (by decide)

/-- C9: during apply-all each sentinel file modifies at most one document
— the one belonging to the first tracked file (in Context Set order)
whose relative path is a plain string suffix of the stripped sentinel
path — and the un-suffixed path is obtained by deleting the first
occurrence of the sentinel suffix in the path, not necessarily a trailing
occurrence. -/
theorem applyAllEdits_firstMatch :
    (∀ (p : String) (orig : List ContextFile) (rd : String → String) (docs : DocStore)
       (u : String),
      applyAllEdits [p] orig rd docs u ≠ docs u →
      ∃ f : ContextFile, orig.find? (tailMatches p) = some f ∧ u = f.uri) ∧
    (∀ (p : String) (xs ys : List ContextFile) (f : ContextFile)
       (rd : String → String) (docs : DocStore),
      (∀ g ∈ xs, tailMatches p g = false) →
      tailMatches p f = true →
      applyAllEdits [p] (xs ++ f :: ys) rd docs = replaceDoc docs f.uri (rd p)) ∧
    replaceFirst "a.codeforgedit/b.codeforgedit" sentinelSuffix "" = "a/b.codeforgedit" := by
  refine ⟨?_, ?_, by decide⟩
  · intro p orig rd docs u hne
    rw [applyAllEdits_singleton] at hne
    cases h : orig.find? (tailMatches p) with
    | none =>
      rw [h] at hne
      exact absurd rfl hne
    | some f =>
      rw [h] at hne
      refine ⟨f, rfl, ?_⟩
      by_contra hu
      exact hne (by simp [replaceDoc, hu])
  · intro p xs ys f rd docs hxs hf
    rw [applyAllEdits_singleton]
    have hfind : (xs ++ f :: ys).find? (tailMatches p) = some f := by
      induction xs with
      | nil => simp [List.find?_cons_of_pos, hf]
      | cons g gs ih =>
        have hg : tailMatches p g = false := hxs g (by simp)
        rw [List.cons_append, List.find?_cons_of_neg _ (by simp [hg])]
        exact ih (fun g2 hg2 => hxs g2 (by simp [hg2]))
    rw [hfind]

/-- Witness for C9: with a non-matching file first and two matching files
tracked, the first matching file's document receives the edit. -/
theorem applyAllEdits_firstMatch_witness :
    applyAllEdits ["/t/src/a.ts.codeforgedit"]
      ([{ uri := "file:w/src/c.md", name := "c.md", relativePath := "src/c.md",
          content := some "c", isActive := true }] ++
        { uri := "file:w/src/a.ts", name := "a.ts", relativePath := "src/a.ts",
          content := some "a", isActive := true } ::
        [{ uri := "file:w2/a.ts", name := "a.ts", relativePath := "a.ts",
           content := some "a2", isActive := true }])
      (fun _ => "NEW") (fun _ => "OLD")
      = replaceDoc (fun _ => "OLD") "file:w/src/a.ts" "NEW" :=
  applyAllEdits_firstMatch.2.1 "/t/src/a.ts.codeforgedit"
    [{ uri := "file:w/src/c.md", name := "c.md", relativePath := "src/c.md",
       content := some "c", isActive := true }]
    [{ uri := "file:w2/a.ts", name := "a.ts", relativePath := "a.ts",
       content := some "a2", isActive := true }]
    { uri := "file:w/src/a.ts", name := "a.ts", relativePath := "src/a.ts",
      content := some "a", isActive := true }
    (fun _ => "NEW") (fun _ => "OLD") (by decide) (by decide)

/-- Apply-all produces only sentinel reads and document edits: never a
temp-directory removal. -/
theorem removeTempDir_not_mem_applyAllEvents (d : String) :
    ∀ (editFiles : List String) (orig : List ContextFile) (rd : String → String),
      FsEvent.removeTempDir d ∉ applyAllEvents editFiles orig rd := by
  intro editFiles
  induction editFiles with
  | nil =>
    intro orig rd
    simp [applyAllEvents]
  | cons p rest ih =>
    intro orig rd
    simp only [applyAllEvents]
    cases hfind : orig.find? (fun f => jsEndsWith (replaceFirst p sentinelSuffix "") f.relativePath) with
    | some f => simp [hfind, ih orig rd]
    | none => simp [hfind, ih orig rd]

/-- Handling edit results never removes the temp directory. -/
theorem removeTempDir_not_mem_handleEditResults (d : String) (orig : List ContextFile)
    (env : EditEnv) :
    FsEvent.removeTempDir d ∉ handleEditResultsEvents orig env := by
  unfold handleEditResultsEvents
  by_cases h : env.sentinelFiles.length > 0
  · rw [if_pos h]
    cases env.userChoice with
    | some choice =>
      dsimp only
      by_cases hc : (choice == "Apply All") = true
      · rw [if_pos hc]
        exact removeTempDir_not_mem_applyAllEvents d env.sentinelFiles orig env.readFile
      · rw [if_neg hc]
        simp
    | none => simp
  · rw [if_neg h]
    simp

/-- Staging produces only the mkdir and file writes: never a removal. -/
theorem removeTempDir_not_mem_stagingEvents (d tempDir : String)
    (contextFiles : List ContextFile) :
    FsEvent.removeTempDir d ∉ stagingEvents tempDir contextFiles := by
  simp [stagingEvents]

/-- C1: for every Edit invocation, the staging directory is created iff
the context is non-empty, and whenever it is created — whatever the
gateway outcome and whatever the user chooses — the trace contains
exactly one removal of that directory, and that removal is the final
effect of the invocation. -/
theorem processEdit_cleanup_once :
    ∀ (request : String) (contextFiles : List ContextFile) (env : EditEnv),
      (FsEvent.mkTempDir env.tempDirName ∈ (processEdit request contextFiles env).2
        ↔ contextFiles ≠ []) ∧
      (contextFiles ≠ [] →
        (processEdit request contextFiles env).2.count
            (FsEvent.removeTempDir env.tempDirName) = 1 ∧
        (processEdit request contextFiles env).2.getLast?
          = some (FsEvent.removeTempDir env.tempDirName)) := by
  intro request contextFiles env
  cases contextFiles with
  | nil =>
    refine ⟨by simp [processEdit], fun h => absurd rfl h⟩
  | cons c rest =>
    constructor
    · simp only [processEdit]
      cases hexec : executeCommand env.execOutcome with
      | error e => simp [hexec, stagingEvents]
      | ok r => simp [hexec, stagingEvents]
    · intro _
      simp only [processEdit]
      cases hexec : executeCommand env.execOutcome with
      | error e =>
        simp only [hexec]
        constructor
        · rw [show ((c :: rest).length == 0) = false by simp]
          simp only [Bool.false_eq_true, if_false, List.count_append]
          rw [List.count_eq_zero.mpr (removeTempDir_not_mem_stagingEvents _ _ _)]
          simp
        · rw [show ((c :: rest).length == 0) = false by simp]
          simp only [Bool.false_eq_true, if_false, ← List.append_assoc]
          exact List.getLast?_concat _
      | ok r =>
        simp only [hexec]
        constructor
        · rw [show ((c :: rest).length == 0) = false by simp]
          simp only [Bool.false_eq_true, if_false, List.count_append]
          rw [List.count_eq_zero.mpr (removeTempDir_not_mem_stagingEvents _ _ _),
              List.count_eq_zero.mpr
                (removeTempDir_not_mem_handleEditResults _ (c :: rest) env)]
          simp
        · rw [show ((c :: rest).length == 0) = false by simp]
          simp only [Bool.false_eq_true, if_false, ← List.append_assoc]
          exact List.getLast?_concat _

/-- Witness for C1: an apply-all run over a one-file context removes the
staging directory exactly once, as the final effect. -/
theorem processEdit_cleanup_once_witness :
    (processEdit "make it better"
       [{ uri := "file:w/a.ts", name := "a.ts", relativePath := "a.ts",
          content := some "x", isActive := true }]
       { tempDirName := "/tmp/codeforgex-1",
         execOutcome := ExecOutcome.success "done" "",
         sentinelFiles := ["/tmp/codeforgex-1/a.ts.codeforgedit"],
         readFile := fun _ => "Z",
         userChoice := some "Apply All" }).2.count
      (FsEvent.removeTempDir "/tmp/codeforgex-1") = 1 ∧
    (processEdit "make it better"
       [{ uri := "file:w/a.ts", name := "a.ts", relativePath := "a.ts",
          content := some "x", isActive := true }]
       { tempDirName := "/tmp/codeforgex-1",
         execOutcome := ExecOutcome.success "done" "",
         sentinelFiles := ["/tmp/codeforgex-1/a.ts.codeforgedit"],
         readFile := fun _ => "Z",
         userChoice := some "Apply All" }).2.getLast?
      = some (FsEvent.removeTempDir "/tmp/codeforgex-1") :=
  (processEdit_cleanup_once "make it better"
    [{ uri := "file:w/a.ts", name := "a.ts", relativePath := "a.ts",
       content := some "x", isActive := true }]
    { tempDirName := "/tmp/codeforgex-1",
      execOutcome := ExecOutcome.success "done" "",
      sentinelFiles := ["/tmp/codeforgex-1/a.ts.codeforgedit"],
      readFile := fun _ => "Z",
      userChoice := some "Apply All" }).2 (by simp)

/-- C10: an active tracked file with empty (or absent) cached content is
excluded from the prompt blob and from the staged copies, yet a context
containing it passes the non-empty-context precondition (the temp
directory is created and the pipeline proceeds). -/
theorem emptyContent_excluded :
    (∀ (xs ys : List ContextFile) (f : ContextFile),
      f.isActive = true → contentTruthy f.content = false →
      buildContextContent (xs ++ f :: ys) = buildContextContent (xs ++ ys) ∧
      getActiveContextContent (xs ++ f :: ys) = getActiveContextContent (xs ++ ys) ∧
      ∀ d : String, stagingEvents d (xs ++ f :: ys) = stagingEvents d (xs ++ ys)) ∧
    (∀ (request : String) (xs ys : List ContextFile) (f : ContextFile) (env : EditEnv),
      FsEvent.mkTempDir env.tempDirName ∈ (processEdit request (xs ++ f :: ys) env).2) := by
  constructor
  · intro xs ys f hact hcont
    refine ⟨?_, ?_, ?_⟩
    · simp [buildContextContent, List.filter_append, List.filter_cons, hact, hcont]
    · simp [getActiveContextContent, List.filter_append, List.filter_cons, hact, hcont]
    · intro d
      simp [stagingEvents, List.filter_append, List.filter_cons, hcont]
  · intro request xs ys f env
    have hlen : ((xs ++ f :: ys).length == 0) = false := by simp
    simp only [processEdit, hlen, Bool.false_eq_true, if_false]
    cases hexec : executeCommand env.execOutcome with
    | error e => simp [hexec, stagingEvents]
    | ok r => simp [hexec, stagingEvents]

/-- Witness for C10: a concrete empty-content active file between two
normal files changes neither the blob nor the staging writes, and its
singleton context still reaches staging. -/
theorem emptyContent_excluded_witness :
    buildContextContent
        [{ uri := "file:w/a.ts", name := "a.ts", relativePath := "a.ts",
           content := some "x", isActive := true },
         { uri := "file:w/e.ts", name := "e.ts", relativePath := "e.ts",
           content := some "", isActive := true }]
      = buildContextContent
        [{ uri := "file:w/a.ts", name := "a.ts", relativePath := "a.ts",
           content := some "x", isActive := true }] ∧
    FsEvent.mkTempDir "/tmp/codeforgex-2" ∈
      (processEdit "req"
        ([] ++ ({ uri := "file:w/e.ts", name := "e.ts", relativePath := "e.ts",
                  content := some "", isActive := true } : ContextFile) :: [])
        { tempDirName := "/tmp/codeforgex-2",
          execOutcome := ExecOutcome.failure "timeout",
          sentinelFiles := [],
          readFile := fun _ => "",
          userChoice := none }).2 :=
  ⟨(emptyContent_excluded.1
      [{ uri := "file:w/a.ts", name := "a.ts", relativePath := "a.ts",
         content := some "x", isActive := true }] []
      { uri := "file:w/e.ts", name := "e.ts", relativePath := "e.ts",
        content := some "", isActive := true } rfl rfl).1,
   emptyContent_excluded.2 "req" []
     [] { uri := "file:w/e.ts", name := "e.ts", relativePath := "e.ts",
          content := some "", isActive := true }
     { tempDirName := "/tmp/codeforgex-2",
       execOutcome := ExecOutcome.failure "timeout",
       sentinelFiles := [],
       readFile := fun _ => "",
       userChoice := none }⟩

end CodeForgeX
